import Mathlib

/-!
Shallow embedding of `linkcheck/logger/__init__.py` (the `Logger` base class,
its field registry, text codec, output-sink lifecycle and accounting), with
theorems checking the specification's claims about it.

Conventions of the embedding:
* Python's mutable `self` becomes an explicit `LoggerState` record threaded
  through each operation.
* Python exceptions become explicit values: an operation that can raise
  returns an `Option PyExc` component (`none` = returned normally), together
  with the state as mutated up to the point of the raise, and the list of
  observable side effects (`Ev`) it performed before raising.
* Python `unicode` vs `str` values become the two constructors of `PyStr`;
  a unicode string is its list of code points, a byte string its list of bytes.
* The filesystem and stream environment (directory existence, success of
  `os.makedirs`, `file(...)`, `flush`, `close`) is an explicit `Env` record,
  since those collaborators are outside the repository.
-/

namespace Linkcheck

/-- Python exception classes relevant to this module.  In Python 2,
`IOError` and `OSError` are distinct classes (neither subclasses the other):
`except IOError` does not catch an `OSError`. -/
inductive PyExc where
  | ioError
  | osError
  | valueError
  | keyError
  | attributeError
  deriving DecidableEq

/-- The value of `self.fd`: a real writable stream (a lazily created file or
an externally supplied handle), the process standard output fallback, or the
`dummy.Dummy()` discard object installed after a failed open. -/
inductive Fd where
  | stream (id : Nat)
  | stdout
  | dummy
  deriving DecidableEq

/-- Observable side effects of the sink operations. -/
inductive Ev where
  /-- a `log.warn(LOG_CHECK, ...)` call -/
  | warned
  /-- `start_fileoutput` was entered (the unopened→open transition fired) -/
  | openAttempt
  /-- bytes written to a live stream via `self.fd.write(...)` -/
  | wrote (bs : List Nat)
  /-- `self.fd.flush()` was invoked on the given fd -/
  | flushAttempt (f : Fd)
  /-- `self.fd.close()` was invoked on the given fd -/
  | closedFd (f : Fd)
  deriving DecidableEq

/-- External environment of a sink operation: what the filesystem and the
underlying stream do when poked.  `dirNonempty` is whether
`os.path.dirname(self.filename)` is truthy, `dirExists` whether
`os.path.isdir` holds of it, `mkdirOk`/`openOk`/`flushOk`/`closeOk` whether
`os.makedirs` / `file(filename, "wb")` / `fd.flush()` / `fd.close()` succeed,
and `newFdId` identifies the file created by a successful open. -/
structure Env where
  dirNonempty : Bool
  dirExists : Bool
  mkdirOk : Bool
  openOk : Bool
  flushOk : Bool
  closeOk : Bool
  newFdId : Nat
  deriving DecidableEq

/-- A Python 2 string value: `unicode` (a sequence of code points) or a byte
string `str` (a sequence of bytes). -/
inductive PyStr where
  | unicode (cps : List Nat)
  | bytes (bs : List Nat)
  deriving DecidableEq

/-- A result record as `log_filter_url` consumes it: validity flag and the
ordered warning collection (only its length is read here). -/
structure UrlData where
  valid : Bool
  warnings : List String
  deriving DecidableEq

/-- The `Fields` table: field identifier → human-readable label
(the `_` translation hook is the identity in the source). -/
def Fields : List (String × String) :=
  [ ("realurl", "Real URL"),
    ("cachekey", "Cache key"),
    ("result", "Result"),
    ("base", "Base"),
    ("name", "Name"),
    ("parenturl", "Parent URL"),
    ("extern", "Extern"),
    ("info", "Info"),
    ("warning", "Warning"),
    ("dltime", "D/L Time"),
    ("dlsize", "D/L Size"),
    ("checktime", "Check Time"),
    ("url", "URL") ]

/-- Modelled from the spec: `i18n.default_encoding` lives outside this
repository; the spec only says the default is "a system-determined default".
Its concrete value is irrelevant to every claim (the codec below is fixed). -/
def default_encoding : String := "iso-8859-1"

/-- The state of one `Logger` instance.  The three `init_fileoutput` fields
are present from the start with inert defaults (`fd := none`); Python creates
them on `init_fileoutput`, and the only pre-init access, `flush`'s
`hasattr(self, "fd")` guard, behaves identically on this default. -/
structure LoggerState where
  logparts : Option (List String)
  logspaces : List (String × String)
  max_indent : Nat
  number : Nat
  errors : Nat
  errors_printed : Nat
  warnings : Nat
  warnings_printed : Nat
  output_encoding : String
  filename : Option String
  close_fd : Bool
  fd : Option Fd
  deriving DecidableEq

/-- `Logger.__init__`: part restrictions and counters.  `parts = none` means
the `parts` keyword was absent; a `parts` list containing `"all"` also
selects all parts (`logparts` stays `None`). -/
def Logger_init (parts : Option (List String)) (encoding : Option String) :
    LoggerState :=
  { logparts :=
      match parts with
      | none => none
      | some ps => if ps.contains "all" then none else some ps
    logspaces := []
    max_indent := 0
    number := 0
    errors := 0
    errors_printed := 0
    warnings := 0
    warnings_printed := 0
    output_encoding := encoding.getD default_encoding
    filename := none
    close_fd := false
    fd := none }

/-- The file-output part of the construction arguments: `fileoutput` with a
filename, an explicit `fd` handle, or neither (stdout fallback). -/
inductive FileArgs where
  | fileoutput (filename : String)
  | fdArg (id : Nat)
  | noneArg
  deriving DecidableEq

/-- `Logger.init_fileoutput`. -/
def init_fileoutput (L : LoggerState) (a : FileArgs) : LoggerState :=
  match a with
  | .fileoutput fn => { L with filename := some fn, close_fd := false, fd := none }
  | .fdArg i => { L with filename := none, close_fd := false, fd := some (.stream i) }
  | .noneArg => { L with filename := none, close_fd := false, fd := some .stdout }

/-- `Logger.has_part`. -/
def has_part (L : LoggerState) (name : String) : Bool :=
  match L.logparts with
  | none => true
  | some ps => ps.contains name

/-- `Logger.part`: `Fields[name]`, a fallible dict lookup (`KeyError` on an
unknown identifier is modelled as `none`). -/
def part (name : String) : Option String :=
  (Fields.find? (fun p => p.1 == name)).map (fun p => p.2)

/-- `Logger.spaces`: `self.logspaces[name]`, again a fallible dict lookup. -/
def spaces (L : LoggerState) (name : String) : Option String :=
  (L.logspaces.find? (fun p => p.1 == name)).map (fun p => p.2)

/-- The parts iterated over by `start_output`: all field identifiers when
`logparts is None`, else the configured selection. -/
def selectedParts (L : LoggerState) : List String :=
  match L.logparts with
  | none => Fields.map (fun p => p.1)
  | some ps => ps

/-- Maximum length of a list of labels, as `max(len(x) for x in values)`
computes it on a non-empty list of strings. -/
def maxLen (ls : List String) : Nat :=
  ls.foldl (fun m l => max m l.length) 0

/-- The labels of a list of parts, in order: the generator
`(self.part(x) for x in parts)`, where `self.part` can raise `KeyError`
(modelled as the whole computation yielding `none`). -/
def partsLabels : List String → Option (List String)
  | [] => some []
  | a :: as =>
    match part a, partsLabels as with
    | some b, some bs => some (b :: bs)
    | _, _ => none

/-- `Logger.start_output`: computes `max_indent` and the `logspaces` table.
Fallible: `self.part(x)` raises `KeyError` on an unknown selected part, and
`max()` raises `ValueError` on an empty selection; both are modelled as
`none`. -/
def start_output (L : LoggerState) : Option LoggerState :=
  let parts := selectedParts L
  match partsLabels parts with
  | none => none
  | some values =>
    if parts.isEmpty then none
    else
      let mi := maxLen values + 1
      some { L with
              max_indent := mi
              logspaces := parts.map (fun key =>
                (key, String.mk (List.replicate (mi - ((part key).getD "").length) ' '))) }

/-- `Logger.log_filter_url`: the accounting step.  The abstract
format-specific `log_url` hook touches no counters, so only the counter
updates are modelled. -/
def log_filter_url (L : LoggerState) (url_data : UrlData) (do_print : Bool) :
    LoggerState :=
  let L1 := { L with number := L.number + 1 }
  let L2 :=
    if !url_data.valid then
      let La := { L1 with errors := L1.errors + 1 }
      if do_print then { La with errors_printed := La.errors_printed + 1 } else La
    else L1
  let num_warnings := url_data.warnings.length
  let L3 := { L2 with warnings := L2.warnings + num_warnings }
  if do_print then
    { L3 with warnings_printed := L3.warnings_printed + num_warnings }
  else L3

/-- A whole intake sequence: `log_filter_url` once per record, in order. -/
def intakeSeq (L : LoggerState) (us : List (UrlData × Bool)) : LoggerState :=
  us.foldl (fun L p => log_filter_url L p.1 p.2) L

/-- An intake sequence driven entirely with `do_print = False`. -/
def intakeFalse (L : LoggerState) (us : List UrlData) : LoggerState :=
  us.foldl (fun L u => log_filter_url L u false) L

/-- Modelled from the spec: the Python codec machinery behind
`unicode.encode(enc, "replace")` is outside this repository; the spec calls
the configured encoding a single-byte output encoding whose unrepresentable
characters are replaced.  Code points below 256 map to themselves, everything
else to the deterministic replacement byte `'?'` (63). -/
def codecEncodeChar (cp : Nat) : Nat :=
  if cp < 256 then cp else 63

/-- Modelled from the spec: inverse direction of the same single-byte codec,
`str.decode(enc, "replace")`; every byte decodes to the code point it
denotes. -/
def codecDecodeByte (b : Nat) : Nat :=
  b % 256

/-- `Logger.encode`: raises `ValueError` on a non-unicode value, otherwise
encodes with `"replace"` error handling (total on the text, never raises for
unrepresentable characters). -/
def encode (L : LoggerState) (s : PyStr) : Except PyExc (List Nat) :=
  match s with
  | .bytes _ => .error .valueError
  | .unicode cps => .ok (cps.map codecEncodeChar)

/-- `Logger.decode`: a unicode value passes through unchanged, a byte string
is decoded with `"replace"` error handling. -/
def decode (L : LoggerState) (s : PyStr) : PyStr :=
  match s with
  | .unicode cps => .unicode cps
  | .bytes bs => .unicode (bs.map codecDecodeByte)

/-- `Logger.start_fileoutput`: deferred open of the configured file path.
The `try` block covers `os.makedirs` and `file(filename, "wb")`, but its
`except IOError` only catches the `IOError` the open can raise; the `OSError`
a failing `os.makedirs` raises propagates.  On a caught open failure the
sink degrades to `dummy.Dummy()` after a `log.warn`.  `self.filename = None`
runs after the try/except, so it is skipped on the uncaught `OSError`. -/
def start_fileoutput (env : Env) (L : LoggerState) :
    Option PyExc × LoggerState × List Ev :=
  if env.dirNonempty && !env.dirExists && !env.mkdirOk then
    (some .osError, L, [.openAttempt])
  else if env.openOk then
    (none,
     { L with fd := some (.stream env.newFdId), close_fd := true, filename := none },
     [.openAttempt])
  else
    (none, { L with fd := some .dummy, filename := none }, [.openAttempt, .warned])

/-- The body of `Logger.write` after the deferred-open check: warn and drop
when `self.fd is None`, else encode and write (the `Dummy` discard target
swallows the bytes silently). -/
def write_body (env : Env) (L : LoggerState) (s : PyStr) :
    Option PyExc × LoggerState × List Ev :=
  match L.fd with
  | none => (none, L, [.warned])
  | some f =>
    match encode L s with
    | .error e => (some e, L, [])
    | .ok bs =>
      match f with
      | .dummy => (none, L, [])
      | _ => (none, L, [.wrote bs])

/-- `Logger.write`: triggers the deferred open iff `self.filename` is still
set, then writes. -/
def write (env : Env) (L : LoggerState) (s : PyStr) :
    Option PyExc × LoggerState × List Ev :=
  match L.filename with
  | some _ =>
    match start_fileoutput env L with
    | (some e, L1, evs) => (some e, L1, evs)
    | (none, L1, evs) =>
      let r := write_body env L1 s
      (r.1, r.2.1, evs ++ r.2.2)
  | none => write_body env L s

/-- What `self.fd.flush()` raises, per fd kind: `Dummy.flush` swallows
everything, a live stream raises `IOError` when the environment makes the
flush fail. -/
def fd_flush (env : Env) (f : Fd) : Option PyExc :=
  match f with
  | .dummy => none
  | _ => if env.flushOk then none else some .ioError

/-- `Logger.flush`: `hasattr(self, "fd")` then
`try: self.fd.flush() except (IOError, AttributeError): pass`.
`self.fd is None` makes the attribute access raise `AttributeError`, which is
caught; an `IOError` from the flush is caught too. -/
def flush (env : Env) (L : LoggerState) :
    Option PyExc × LoggerState × List Ev :=
  match L.fd with
  | none => (none, L, [])
  | some f =>
    match fd_flush env f with
    | none => (none, L, [.flushAttempt f])
    | some .ioError => (none, L, [.flushAttempt f])
    | some e => (some e, L, [.flushAttempt f])

/-- `Logger.close_fileoutput`: nothing when `self.fd is None`; otherwise
flush, then `self.fd.close()` only under the `close_fd` ownership flag, then
`self.fd = None`.  A close failure raises before `self.fd = None` runs. -/
def close_fileoutput (env : Env) (L : LoggerState) :
    Option PyExc × LoggerState × List Ev :=
  match L.fd with
  | none => (none, L, [])
  | some f =>
    match flush env L with
    | (some e, L1, evs) => (some e, L1, evs)
    | (none, L1, evs) =>
      if L1.close_fd then
        if env.closeOk then
          (none, { L1 with fd := none }, evs ++ [.closedFd f])
        else
          (some .ioError, L1, evs ++ [.closedFd f])
      else
        (none, { L1 with fd := none }, evs)

/-- The five session counters of a state, bundled for statements about
accounting. -/
def counters (L : LoggerState) : Nat × Nat × Nat × Nat × Nat :=
  (L.number, L.errors, L.errors_printed, L.warnings, L.warnings_printed)

/-- The counter invariants the spec claims:
invalid printed ≤ invalid seen ≤ items seen, warnings printed ≤ warnings
seen. -/
def countersInv (L : LoggerState) : Prop :=
  L.errors_printed ≤ L.errors ∧ L.errors ≤ L.number ∧
    L.warnings_printed ≤ L.warnings

instance (L : LoggerState) : Decidable (countersInv L) := by
  unfold countersInv; infer_instance

/-- Componentwise order on the counter bundle ("counters never decrease"). -/
def countersLe (L M : LoggerState) : Prop :=
  L.number ≤ M.number ∧ L.errors ≤ M.errors ∧
    L.errors_printed ≤ M.errors_printed ∧ L.warnings ≤ M.warnings ∧
    L.warnings_printed ≤ M.warnings_printed

instance (L M : LoggerState) : Decidable (countersLe L M) := by
  unfold countersLe; infer_instance

/-! Concrete states and environments used by several statements below. -/

/-- A valid record carrying no warnings. -/
def uValid0 : UrlData := ⟨true, []⟩

/-- An invalid record carrying two warnings. -/
def uInvalid2 : UrlData := ⟨false, ["w1", "w2"]⟩

/-! ## Helper lemmas -/

lemma lfu_counters (L : LoggerState) (u : UrlData) (b : Bool) :
    (log_filter_url L u b).number = L.number + 1 ∧
    (log_filter_url L u b).errors = L.errors + (if u.valid then 0 else 1) ∧
    (log_filter_url L u b).errors_printed
      = L.errors_printed + (if !u.valid && b then 1 else 0) ∧
    (log_filter_url L u b).warnings = L.warnings + u.warnings.length ∧
    (log_filter_url L u b).warnings_printed
      = L.warnings_printed + (if b then u.warnings.length else 0) := by
  unfold log_filter_url
  cases hu : u.valid <;> cases b <;> simp

/-! ## C1 -/

/-- C1: the claim that `log_filter_url` with `do_print = False` leaves the
"warnings seen" counter unchanged is false: the source increments
`self.warnings` unconditionally, before the `do_print` test.  Concrete
refutation: a suppressed record with two warnings moves "warnings seen" from
0 to 2. -/
theorem C1_counterexample :
    (log_filter_url (Logger_init none none) uInvalid2 false).warnings ≠
      (Logger_init none none).warnings := by
  decide

/-- C1 (amended): intake with `do_print = False` leaves "warnings printed"
(and "invalid printed") unchanged, but increments "warnings seen" by the
record's warning count unconditionally — warnings of suppressed records are
still added to the "warnings seen" total. -/
theorem C1_amended (L : LoggerState) (u : UrlData) :
    (log_filter_url L u false).warnings_printed = L.warnings_printed ∧
    (log_filter_url L u false).errors_printed = L.errors_printed ∧
    (log_filter_url L u false).warnings = L.warnings + u.warnings.length := by
  have h := lfu_counters L u false
  exact ⟨by simp [h.2.2.2.2], by simp [h.2.2.1], h.2.2.2.1⟩

/-! ## C2 -/

/-- C2: from a fresh state, one valid 0-warning record with
`do_print = True` followed by one invalid 2-warning record with
`do_print = False` ends with counters (seen, invalid seen, invalid printed,
warnings seen, warnings printed) = (2, 1, 0, 2, 0); and any sequence of
intakes with `do_print = False` adds its length to "items seen" while
leaving "invalid printed" and "warnings printed" unchanged, whatever the
records' validity. -/
theorem C2_suppressed_accounting :
    counters
        (log_filter_url
          (log_filter_url (Logger_init none none) uValid0 true)
          uInvalid2 false) = (2, 1, 0, 2, 0) ∧
    ∀ (L : LoggerState) (us : List UrlData),
      (intakeFalse L us).number = L.number + us.length ∧
      (intakeFalse L us).errors_printed = L.errors_printed ∧
      (intakeFalse L us).warnings_printed = L.warnings_printed := by
  constructor
  · decide
  · intro L us
    induction us generalizing L with
    | nil => simp [intakeFalse]
    | cons u us ih =>
      have hstep := lfu_counters L u false
      have htail := ih (log_filter_url L u false)
      simp only [intakeFalse, List.foldl_cons] at htail ⊢
      refine ⟨?_, ?_, ?_⟩
      · rw [htail.1, hstep.1, List.length_cons]; omega
      · rw [htail.2.1, hstep.2.2.1]; simp
      · rw [htail.2.2, hstep.2.2.2.2]; simp

/-! ## C3 -/

lemma foldl_max_init_le (ls : List String) (b : Nat) :
    b ≤ ls.foldl (fun m l => max m l.length) b := by
  induction ls generalizing b with
  | nil => exact Nat.le_refl b
  | cons a as ih =>
    exact Nat.le_trans (Nat.le_max_left b a.length) (ih (max b a.length))

lemma foldl_max_mem_le {l : String} {ls : List String} (h : l ∈ ls) (b : Nat) :
    l.length ≤ ls.foldl (fun m x => max m x.length) b := by
  induction ls generalizing b with
  | nil => cases h
  | cons a as ih =>
    rcases List.mem_cons.mp h with rfl | h
    · exact Nat.le_trans (Nat.le_max_right b l.length)
        (foldl_max_init_le as (max b l.length))
    · exact ih h (max b a.length)

lemma maxLen_mem_le {l : String} {ls : List String} (h : l ∈ ls) :
    l.length ≤ maxLen ls :=
  foldl_max_mem_le h 0

lemma partsLabels_mem {parts : List String} {values : List String}
    {name : String} (h : partsLabels parts = some values)
    (hmem : name ∈ parts) :
    ∃ lbl, part name = some lbl ∧ lbl ∈ values := by
  induction parts generalizing values with
  | nil => cases hmem
  | cons a as ih =>
    cases hpa : part a with
    | none => simp [partsLabels, hpa] at h
    | some b =>
      cases hm : partsLabels as with
      | none => simp [partsLabels, hpa, hm] at h
      | some bs =>
        simp only [partsLabels, hpa, hm, Option.some.injEq] at h
        subst h
        rcases List.mem_cons.mp hmem with rfl | hmem
        · exact ⟨b, hpa, List.mem_cons_self b bs⟩
        · obtain ⟨lbl, h1, h2⟩ := ih hm hmem
          exact ⟨lbl, h1, List.mem_cons_of_mem b h2⟩

lemma find?_keyed (f : String → String) {parts : List String} {name : String}
    (h : name ∈ parts) :
    (parts.map (fun key => (key, f key))).find? (fun p => p.1 == name)
      = some (name, f name) := by
  induction parts with
  | nil => cases h
  | cons a as ih =>
    by_cases ha : a = name
    · subst ha
      simp [List.find?_cons_of_pos]
    · have hmem : name ∈ as := by
        rcases List.mem_cons.mp h with heq | hmem
        · exact absurd heq.symm ha
        · exact hmem
      rw [List.map_cons, List.find?_cons_of_neg _ (by simpa using ha)]
      exact ih hmem

/-- The concrete session of the C3 scenario: selection `{"url", "result"}`. -/
def L3ex : LoggerState := Logger_init (some ["url", "result"]) none

/-- The state after `start_output` on `L3ex` (which succeeds). -/
def L3ex' : LoggerState := (start_output L3ex).getD (Logger_init none none)

/-- C3: after `start_output`, for every selected field the padding returned
by `spaces` plus the field's label length equals the maximum label length
over the selection plus one (`max_indent`); concretely, with selection
`{"url", "result"}` (labels "URL", "Result") the maximum indent is 7,
`spaces "url"` is four spaces and `spaces "result"` one space. -/
theorem C3_alignment :
    (∀ (L L' : LoggerState) (labels : List String) (name : String),
        start_output L = some L' →
        partsLabels (selectedParts L) = some labels →
        name ∈ selectedParts L →
        ∃ sp lbl, spaces L' name = some sp ∧ part name = some lbl ∧
          sp.length + lbl.length = maxLen labels + 1) ∧
    (L3ex'.max_indent = 7 ∧ spaces L3ex' "url" = some "    " ∧
      spaces L3ex' "result" = some " ") := by
  constructor
  · intro L L' labels name h hm hmem
    simp only [start_output, hm] at h
    by_cases he : (selectedParts L).isEmpty
    · simp [he] at h
    · simp only [he, Bool.false_eq_true, if_false, Option.some.injEq] at h
      obtain ⟨lbl, hlbl, hlblmem⟩ := partsLabels_mem hm hmem
      refine ⟨String.mk (List.replicate
          ((maxLen labels + 1) - lbl.length) ' '), lbl, ?_, hlbl, ?_⟩
      · rw [← h]
        simp only [spaces]
        rw [find?_keyed
          (fun key =>
            String.mk (List.replicate
              ((maxLen labels + 1) - ((part key).getD "").length) ' ')) hmem]
        simp [hlbl]
      · have hle : lbl.length ≤ maxLen labels := maxLen_mem_le hlblmem
        have hld : lbl.length = lbl.data.length := rfl
        simp only [String.length, List.length_replicate]
        omega
  · refine ⟨by rfl, by rfl, by rfl⟩

/-- Witness for C3's quantified part, at the concrete `{"url", "result"}`
session and the field `"url"`. -/
theorem C3_witness :
    ∃ sp lbl, spaces L3ex' "url" = some sp ∧ part "url" = some lbl ∧
      sp.length + lbl.length = maxLen ["URL", "Result"] + 1 :=
  C3_alignment.1 L3ex L3ex' ["URL", "Result"] "url" rfl rfl (by decide)

/-! ## C4 -/

/-- C4: `has_part` is true for every field identifier when no part
restriction was given, and when a `parts` collection was given it is true
for every identifier if the collection contains `"all"`, and exactly for the
members of the collection otherwise. -/
theorem C4_has_part (ps : List String) (name : String) :
    has_part (Logger_init none none) name = true ∧
    has_part (Logger_init (some ps) none) name
      = (ps.contains "all" || ps.contains name) := by
  constructor
  · rfl
  · by_cases h : "all" ∈ ps <;>
      simp [has_part, Logger_init, h]

/-! ## C5 -/

/-- C5: for every identifier in the fixed field set, `part` returns its
(non-empty) label; for any identifier outside the set, the `Fields[name]`
lookup faults (modelled as `none`). -/
theorem C5_part_labels :
    (∀ name, name ∈ Fields.map (fun p => p.1) →
        ∃ lbl, part name = some lbl ∧ lbl ≠ "") ∧
    (∀ name, name ∉ Fields.map (fun p => p.1) → part name = none) := by
  constructor
  · intro name h
    simp only [Fields, List.map_cons, List.map_nil, List.mem_cons,
      List.not_mem_nil, or_false] at h
    rcases h with h | h | h | h | h | h | h | h | h | h | h | h | h <;>
      subst h <;> exact ⟨_, rfl, by decide⟩
  · intro name h
    have hnone : Fields.find? (fun p => p.1 == name) = none := by
      rw [List.find?_eq_none]
      intro x hx hbeq
      exact h (List.mem_map.mpr ⟨x, hx, beq_iff_eq.mp hbeq⟩)
    simp [part, hnone]

/-- Witness for C5 at the identifiers `"url"` (inside the set) and
`"nourl"` (outside it). -/
theorem C5_witness :
    (∃ lbl, part "url" = some lbl ∧ lbl ≠ "") ∧ part "nourl" = none :=
  ⟨C5_part_labels.1 "url" (by decide), C5_part_labels.2 "nourl" (by decide)⟩

/-! ## C6 -/

/-- C6: `decode (encode s) = s` for text whose code points are all
representable in the output encoding; an unrepresentable code point is
encoded to the deterministic replacement byte instead of faulting; and
`encode` raises `ValueError` on a value that is not unicode text. -/
theorem C6_codec_roundtrip (L : LoggerState) (cps bs : List Nat) :
    (encode L (.unicode cps) = .ok bs → (∀ cp ∈ cps, cp < 256) →
        decode L (.bytes bs) = .unicode cps) ∧
    (∀ cp, ¬ cp < 256 → codecEncodeChar cp = 63) ∧
    (encode L (.bytes bs) = .error .valueError) := by
  refine ⟨?_, ?_, rfl⟩
  · intro henc hrep
    have hbs : bs = cps.map codecEncodeChar := by
      simpa [encode] using henc.symm
    subst hbs
    simp only [decode, List.map_map, PyStr.unicode.injEq]
    have : ∀ cp ∈ cps, (codecDecodeByte ∘ codecEncodeChar) cp = id cp := by
      intro cp hcp
      have h := hrep cp hcp
      simp [codecDecodeByte, codecEncodeChar, h, Nat.mod_eq_of_lt h]
    rw [List.map_congr_left this, List.map_id]
  · intro cp h
    simp [codecEncodeChar, h]

/-- Witness for C6 on the representable text `[72, 255]`. -/
theorem C6_witness :
    decode (Logger_init none none)
        (.bytes ([72, 255].map codecEncodeChar)) = .unicode [72, 255] :=
  (C6_codec_roundtrip (Logger_init none none) [72, 255]
      ([72, 255].map codecEncodeChar)).1 rfl (by decide)

/-! ## C7, C8, C9 -/

/-- Environment in which the target's parent directory is missing and
`os.makedirs` fails. -/
def envBadDir : Env :=
  { dirNonempty := true, dirExists := false, mkdirOk := false,
    openOk := true, flushOk := true, closeOk := true, newFdId := 1 }

/-- Environment in which the directory is fine but `file(filename, "wb")`
fails with `IOError`. -/
def envBadOpen : Env :=
  { dirNonempty := true, dirExists := true, mkdirOk := true,
    openOk := false, flushOk := true, closeOk := true, newFdId := 1 }

/-- A logger configured for deferred file output to `"d/out.txt"`. -/
def L7 : LoggerState :=
  init_fileoutput (Logger_init none none) (.fileoutput "d/out.txt")

/-- A two-code-point unicode payload for `write`. -/
def sU : PyStr := .unicode [104, 105]

lemma write_body_inert (env : Env) (L : LoggerState) (s : PyStr) :
    (write_body env L s).2.1 = L ∧
      Ev.openAttempt ∉ (write_body env L s).2.2 := by
  unfold write_body
  cases hfd : L.fd with
  | none => simp
  | some f =>
    cases s with
    | bytes bs => simp [encode]
    | unicode cps => cases f <;> simp [encode]

lemma flush_no_raise (env : Env) (L : LoggerState) :
    (flush env L).1 = none ∧ (flush env L).2.1 = L := by
  unfold flush
  cases L.fd with
  | none => simp
  | some f =>
    cases f <;> simp [fd_flush] <;> by_cases hf : env.flushOk <;> simp [hf]

/-- C7: the claim that a failed deferred open never propagates a fault to
the caller of `write` is wrong for the directory-creation step: the `try`
block's `except IOError` does not catch the `OSError` a failing
`os.makedirs` raises (Python 2 keeps the two classes separate), so that
fault escapes `write`.  The open-failure path the `except` does cover
behaves as claimed: `write` returns normally, a warning is surfaced, the
sink degrades to the `Dummy` discard target, and `flush`/`close` on the
degraded sink are no-ops that do not raise and never close anything. -/
theorem C7_mkdir_oserror_escapes :
    (write envBadDir L7 sU).1 = some PyExc.osError ∧
    (write envBadOpen L7 sU).1 = none ∧
    (write envBadOpen L7 sU).2.1.fd = some Fd.dummy ∧
    Ev.warned ∈ (write envBadOpen L7 sU).2.2 ∧
    (flush envBadOpen (write envBadOpen L7 sU).2.1).1 = none ∧
    (close_fileoutput envBadOpen (write envBadOpen L7 sU).2.1).1 = none ∧
    (close_fileoutput envBadOpen (write envBadOpen L7 sU).2.1).2.2
      = [Ev.flushAttempt Fd.dummy] := by
  decide

/-- C8: the claim that after the first `write` the unopened→open transition
can never fire again "regardless of whether opening succeeded" is false:
when the opening attempt dies of the uncaught `OSError` (failed directory
creation), `self.filename` is never cleared, and the next `write` runs
`start_fileoutput` again.  Concretely, the second `write` after a failed
first one still emits an open attempt. -/
theorem C8_counterexample :
    (write envBadDir L7 sU).2.2 = [Ev.openAttempt] ∧
    Ev.openAttempt ∈ (write envBadDir ((write envBadDir L7 sU).2.1) sU).2.2 := by
  decide

/-- C8 (amended): `write` triggers the deferred opening exactly when the
sink is still unopened (`self.filename` set); whenever a `write` returns
without the uncaught `OSError` — i.e. whenever the opening attempt ran to
completion, successfully or degrading on a caught `IOError` — the sink has
left the unopened state, so the transition can never fire on any later
`write`; and a `write` issued when the sink holds no valid stream returns
normally: a warning is surfaced, the bytes are dropped, no fault
propagates. -/
theorem C8_deferred_open (env : Env) (L : LoggerState) (s : PyStr) :
    (L.filename ≠ none → Ev.openAttempt ∈ (write env L s).2.2) ∧
    ((write env L s).1 ≠ some PyExc.osError →
      (write env L s).2.1.filename = none) ∧
    (L.filename = none → Ev.openAttempt ∉ (write env L s).2.2) ∧
    (L.filename = none → L.fd = none →
      write env L s = (none, L, [Ev.warned])) := by
  cases hfn : L.filename with
  | none =>
    refine ⟨fun h => absurd rfl h, ?_, ?_, ?_⟩
    · intro _
      have hb := write_body_inert env L s
      simp only [write, hfn]
      rw [hb.1, hfn]
    · intro _
      simp only [write, hfn]
      exact (write_body_inert env L s).2
    · intro _ hfd
      simp only [write, hfn, write_body, hfd]
  | some fn =>
    have hocc : Ev.openAttempt ∈ (write env L s).2.2 ∧
        ((write env L s).1 ≠ some PyExc.osError →
          (write env L s).2.1.filename = none) := by
      simp only [write, hfn, start_fileoutput]
      by_cases h1 : (env.dirNonempty && !env.dirExists && !env.mkdirOk) = true
      · simp [h1]
      · by_cases h2 : env.openOk = true
        · simp only [h1, h2, Bool.false_eq_true, if_false, if_true]
          constructor
          · simp
          · intro _
            rw [(write_body_inert env _ s).1]
        · simp only [h1, h2, Bool.false_eq_true, if_false]
          constructor
          · simp
          · intro _
            rw [(write_body_inert env _ s).1]
    exact ⟨fun _ => hocc.1, hocc.2,
      fun h => Option.noConfusion h,
      fun h _ => Option.noConfusion h⟩

/-- Witness for C8 at a fresh logger (unopened never, no stream): the write
is tolerated, warns and drops. -/
theorem C8_witness :
    write envBadDir (Logger_init none none) sU
      = (none, Logger_init none none, [Ev.warned]) :=
  (C8_deferred_open envBadDir (Logger_init none none) sU).2.2.2 rfl rfl

lemma flush_eval_some (env : Env) (L : LoggerState) (f : Fd)
    (h : L.fd = some f) :
    flush env L = (none, L, [Ev.flushAttempt f]) := by
  unfold flush
  rw [h]
  cases f <;> simp [fd_flush] <;> by_cases hf : env.flushOk <;> simp [hf]

lemma close_on_fd_none (env : Env) (L : LoggerState) (h : L.fd = none) :
    close_fileoutput env L = (none, L, []) := by
  unfold close_fileoutput
  rw [h]

/-- C9: `close_fileoutput` flushes first and invokes `fd.close()` only when
the session owns the stream (`close_fd`, set only by a successful lazy file
creation); streams supplied from outside and the stdout fallback are
constructed unowned and are never closed; and after a completed close the
next close is a no-op that cannot raise. -/
theorem C9_close_ownership (env : Env) (L : LoggerState) :
    (∀ (L0 : LoggerState) (i : Nat),
        (init_fileoutput L0 (.fdArg i)).close_fd = false) ∧
    (∀ L0 : LoggerState, (init_fileoutput L0 .noneArg).close_fd = false) ∧
    (L.close_fd = false →
        (close_fileoutput env L).1 = none ∧
        (close_fileoutput env L).2.1.fd = none ∧
        ∀ f, Ev.closedFd f ∉ (close_fileoutput env L).2.2) ∧
    (∀ f, L.fd = some f → L.close_fd = true → env.closeOk = true →
        close_fileoutput env L
          = (none, { L with fd := none },
              [Ev.flushAttempt f, Ev.closedFd f])) ∧
    ((close_fileoutput env L).1 = none →
        close_fileoutput env ((close_fileoutput env L).2.1)
          = (none, (close_fileoutput env L).2.1, [])) := by
  refine ⟨fun L0 i => rfl, fun L0 => rfl, ?_, ?_, ?_⟩
  · intro hown
    cases hfd : L.fd with
    | none =>
      rw [close_on_fd_none env L hfd]
      simp [hfd]
    | some f =>
      unfold close_fileoutput
      rw [hfd, flush_eval_some env L f hfd]
      simp [hown]
  · intro f hfd hown hok
    unfold close_fileoutput
    rw [hfd, flush_eval_some env L f hfd]
    simp [hown, hok]
  · intro hok
    have hfd' : (close_fileoutput env L).2.1.fd = none := by
      cases hfd : L.fd with
      | none => rw [close_on_fd_none env L hfd]; simpa using hfd
      | some f =>
        unfold close_fileoutput at hok ⊢
        rw [hfd, flush_eval_some env L f hfd] at hok ⊢
        by_cases hown : L.close_fd
        · by_cases hc : env.closeOk
          · simp [hown, hc]
          · simp [hown, hc] at hok
        · simp [hown]
    exact close_on_fd_none env _ hfd'

/-- Witness for C9: an owned live stream is flushed, then closed. -/
theorem C9_witness :
    close_fileoutput envBadOpen
        { Logger_init none none with fd := some (Fd.stream 5), close_fd := true }
      = (none,
          { Logger_init none none with fd := none, close_fd := true },
          [Ev.flushAttempt (Fd.stream 5), Ev.closedFd (Fd.stream 5)]) :=
  (C9_close_ownership envBadOpen
      { Logger_init none none with fd := some (Fd.stream 5), close_fd := true }
    ).2.2.2.1 (Fd.stream 5) rfl rfl rfl

/-! ## C10 -/

lemma counters_start_fileoutput (env : Env) (L : LoggerState) :
    counters (start_fileoutput env L).2.1 = counters L := by
  unfold start_fileoutput
  by_cases h1 : (env.dirNonempty && !env.dirExists && !env.mkdirOk) = true
  · simp [h1]
  · by_cases h2 : env.openOk = true <;> simp [h1, h2, counters]

lemma counters_write (env : Env) (L : LoggerState) (s : PyStr) :
    counters (write env L s).2.1 = counters L := by
  cases hfn : L.filename with
  | none =>
    simp only [write, hfn]
    rw [(write_body_inert env L s).1]
  | some fn =>
    have hs := counters_start_fileoutput env L
    simp only [write, hfn]
    rcases hsf : start_fileoutput env L with ⟨eo, L1, evs⟩
    rw [hsf] at hs
    cases eo with
    | some e => simpa using hs
    | none =>
      simp only
      rw [(write_body_inert env L1 s).1]
      simpa using hs

lemma countersLe_trans {A B C : LoggerState}
    (h1 : countersLe A B) (h2 : countersLe B C) : countersLe A C := by
  unfold countersLe at *
  omega

lemma lfu_mono (L : LoggerState) (u : UrlData) (b : Bool) :
    countersLe L (log_filter_url L u b) := by
  have h := lfu_counters L u b
  unfold countersLe
  cases hu : u.valid <;> cases b <;> rw [hu] at h <;> simp at h <;> omega

lemma lfu_inv (L : LoggerState) (u : UrlData) (b : Bool)
    (hInv : countersInv L) : countersInv (log_filter_url L u b) := by
  have h := lfu_counters L u b
  unfold countersInv at *
  cases hu : u.valid <;> cases b <;> rw [hu] at h <;> simp at h <;> omega

/-- C10: the five session counters are zero at construction; the stream
lifecycle operations (`init_fileoutput`, `start_output`, `write`, `flush`,
`close_fileoutput`) never touch them, so only the per-record intake mutates
them; a single intake never decreases any counter, hence no sequence of
intakes does; and every state reachable by intakes from a fresh logger
satisfies invalid printed ≤ invalid seen ≤ items seen and
warnings printed ≤ warnings seen. -/
theorem C10_counter_lifecycle :
    (∀ p e, counters (Logger_init p e) = (0, 0, 0, 0, 0)) ∧
    (∀ (L : LoggerState) (a : FileArgs),
        counters (init_fileoutput L a) = counters L) ∧
    (∀ (L L' : LoggerState), start_output L = some L' →
        counters L' = counters L) ∧
    (∀ (env : Env) (L : LoggerState) (s : PyStr),
        counters (write env L s).2.1 = counters L) ∧
    (∀ (env : Env) (L : LoggerState),
        counters (flush env L).2.1 = counters L) ∧
    (∀ (env : Env) (L : LoggerState),
        counters (close_fileoutput env L).2.1 = counters L) ∧
    (∀ (L : LoggerState) (u : UrlData) (b : Bool),
        countersLe L (log_filter_url L u b)) ∧
    (∀ (L : LoggerState) (u : UrlData) (b : Bool),
        countersInv L → countersInv (log_filter_url L u b)) ∧
    (∀ (L : LoggerState) (us : List (UrlData × Bool)),
        countersLe L (intakeSeq L us)) ∧
    (∀ p e us, countersInv (intakeSeq (Logger_init p e) us)) := by
  have hseqLe : ∀ (us : List (UrlData × Bool)) (L : LoggerState),
      countersLe L (intakeSeq L us) := by
    intro us
    induction us with
    | nil =>
      intro L
      unfold intakeSeq countersLe
      simp
    | cons p ps ih =>
      intro L
      have h1 := lfu_mono L p.1 p.2
      have h2 := ih (log_filter_url L p.1 p.2)
      simp only [intakeSeq, List.foldl_cons] at h2 ⊢
      exact countersLe_trans h1 h2
  have hseqInv : ∀ (us : List (UrlData × Bool)) (L : LoggerState),
      countersInv L → countersInv (intakeSeq L us) := by
    intro us
    induction us with
    | nil =>
      intro L h
      simpa [intakeSeq] using h
    | cons p ps ih =>
      intro L h
      simp only [intakeSeq, List.foldl_cons] at ih ⊢
      exact ih _ (lfu_inv L p.1 p.2 h)
  refine ⟨fun p e => rfl, fun L a => by cases a <;> rfl, ?_,
    counters_write, ?_, ?_, lfu_mono, lfu_inv, fun L us => hseqLe us L,
    fun p e us => hseqInv us (Logger_init p e) (by unfold countersInv; simp [Logger_init])⟩
  · intro L L' h
    cases hm : partsLabels (selectedParts L) with
    | none => simp [start_output, hm] at h
    | some values =>
      simp only [start_output, hm] at h
      by_cases he : (selectedParts L).isEmpty
      · simp [he] at h
      · simp only [he, Bool.false_eq_true, if_false, Option.some.injEq] at h
        rw [← h]
        rfl
  · intro env L
    rw [(flush_no_raise env L).2]
  · intro env L
    cases hfd : L.fd with
    | none => rw [close_on_fd_none env L hfd]
    | some f =>
      unfold close_fileoutput
      rw [hfd, flush_eval_some env L f hfd]
      by_cases hown : L.close_fd <;> by_cases hc : env.closeOk <;>
        simp [hown, hc, counters]

/-- Witness for C10's invariant-preservation conjunct at a fresh logger and
a printed invalid record with two warnings. -/
theorem C10_witness :
    countersInv (log_filter_url (Logger_init none none) uInvalid2 true) :=
  C10_counter_lifecycle.2.2.2.2.2.2.2.1 (Logger_init none none) uInvalid2 true
    (by decide)

end Linkcheck
